import Mathlib

/-!
Shallow embedding of the training orchestration in `src/trainer.py` of the
sequence-models-comparisons repository.

Scope of the embedding (and what is abstracted):
* Python floats carrying loss values are modelled as rationals; the initial
  `best_loss = float('inf')` is modelled as `⊤` in `WithTop ℚ`.  The only
  operations the trainer performs on losses are `min` and assignment, which
  are exact on floats, so nothing is lost.
* The deep-learning framework is an external collaborator: model weights,
  optimizer state, the per-step scalar loss produced by forward/backward, and
  the model outputs seen by evaluation depend on it.  They are supplied as
  oracles in a `Framework` record, indexed by the global step.
* Python exceptions that the trainer can actually raise on the modelled paths
  (`ValueError` from `max()` on an empty sequence, `ZeroDivisionError` from
  dividing by a zero example count) are modelled with `Except`.
* The `STEPS` constants (`LOG_STEP`, `SAVE_STEP`, `EVAL_STEP`,
  `WARMUP_STEPS`) live in `src/consts.py`, and the `PHASE` / `SPLIT` enums in
  `src/types.py`; those files are not part of the provided sources, but the
  trainer only reads the constants as opaque naturals and only uses the two
  phase values, so the constants are passed as a `StepsConfig` parameter and
  the enum is the two-constructor type below.
-/

namespace SeqModels

/-- The two training phases branched on throughout `trainer.py`
(`PHASE.AUTOREGRESSIVE`, `PHASE.CLASSIFICATION` from `src/types.py`). -/
inductive PHASE where
  | AUTOREGRESSIVE
  | CLASSIFICATION
deriving DecidableEq, BEq

/-- A `torch.nn.CrossEntropyLoss` value, identified by the only argument the
trainer ever passes: the optional `ignore_index`. -/
structure CrossEntropyLoss where
  ignore_index : Option Nat
deriving DecidableEq

/-- Embeds `Trainer.get_loss_fn` (trainer.py lines 112-118): plain cross-entropy for
classification, cross-entropy ignoring the padding token for autoregressive
pretraining.  The `raise ValueError` arm is unreachable for a two-valued
phase enum. -/
def get_loss_fn (phase_name : PHASE) (pad_token_id : Nat) : CrossEntropyLoss :=
  match phase_name with
  | PHASE.CLASSIFICATION => ⟨none⟩
  | PHASE.AUTOREGRESSIVE => ⟨some pad_token_id⟩

/-- The `Checkpoint` TypedDict (trainer.py lines 43-49).  The opaque
state-dict snapshots are identified by a natural number tag. -/
structure Checkpoint where
  epoch : Nat
  step : Nat
  model_state_dict : Nat
  optimizer_state_dict : Nat
  best_loss : WithTop ℚ
  during_pretraining : Bool
deriving DecidableEq

/-- Python exceptions reachable on the modelled code paths. -/
inductive PyError where
  | valueError
  | zeroDivisionError
deriving DecidableEq

/-- Python `max(entries, key=lambda x: int(x.stem))` over a non-empty list:
scan left, replacing the current element whenever a strictly larger key
appears (so the first maximal element is kept, as Python does). -/
def maxByStep (c : Checkpoint) (cs : List Checkpoint) : Checkpoint :=
  cs.foldl (fun a b => if a.step < b.step then b else a) c

/-- Embeds `Trainer.get_latest_chkpt` (trainer.py lines 377-381).  The run's
checkpoint directory is `none` when absent and `some entries` when present,
each entry being the checkpoint file named by its integer step.  When the
directory exists, the code returns `max(dir_path.iterdir(), key=...)`, which
raises `ValueError` on an empty directory; when it does not exist, it
returns `None`. -/
def get_latest_chkpt (dir : Option (List Checkpoint)) :
    Except PyError (Option Checkpoint) :=
  match dir with
  | none => Except.ok none
  | some [] => Except.error PyError.valueError
  | some (c :: cs) => Except.ok (some (maxByStep c cs))

/-- Embeds `Trainer.load_checkpoint` (trainer.py lines 142-145): `torch.load` the
path returned by `get_latest_chkpt` when there is one, and fall through to
`None` otherwise. -/
def load_checkpoint (dir : Option (List Checkpoint)) :
    Except PyError (Option Checkpoint) :=
  get_latest_chkpt dir

/-- Embeds `torch.utils.data.DataLoader(dataset, batch_size=B)` batching: split a
list into consecutive chunks of size `B` (the last chunk may be shorter,
`drop_last` defaults to false).  `B = 0` is rejected by the framework; the
`[]` result in that arm is never reached under the `0 < B` hypotheses of the
theorems below. -/
def chunks : Nat → List α → List (List α)
  | _, [] => []
  | 0, _ :: _ => []
  | B + 1, x :: xs => (x :: xs).take (B + 1) :: chunks (B + 1) (xs.drop B)
termination_by _ l => l.length
decreasing_by
  simp_wf
  omega

/-- One evaluation example after the forward pass: the model's output logits
(one score per class) and the true label. -/
structure EvalExample where
  logits : List ℚ
  label : Nat
deriving DecidableEq

/-- Embeds `torch.max(outputs.data, 1)` per example: the index of the first maximal
logit. -/
def argmaxAux : List ℚ → Nat → Nat → ℚ → Nat
  | [], _, besti, _ => besti
  | x :: xs, i, besti, bestv =>
      if bestv < x then argmaxAux xs (i + 1) i x
      else argmaxAux xs (i + 1) besti bestv

/-- Index of the first maximal element of the logit list (`0` for an empty
list, which does not occur for a real model output). -/
def argmax : List ℚ → Nat
  | [] => 0
  | x :: xs => argmaxAux xs 1 0 x

/-- The metrics dictionary `{'Test Loss': ..., 'Test Accuracy': ...}`
returned by `_evaluate_model`. -/
structure EvalMetrics where
  testLoss : ℚ
  testAccuracy : ℚ
deriving DecidableEq

/-- Embeds `(predicted == labels).sum().item()` for one batch: how many examples
have `argmax` of the logits equal to the label. -/
def batchCorrect (b : List EvalExample) : Nat :=
  (b.filter (fun e => argmax e.logits == e.label)).length

/-- Embeds `Trainer._evaluate_model` (trainer.py lines 347-375) after the forward
passes: `examples` is the evaluation split with each example's model output
logits, `applyLoss` is the framework's loss computation applied to the
selected `CrossEntropyLoss` and one batch.  The loss function is hardcoded
to `get_loss_fn(PHASE.CLASSIFICATION, ...)` (line 362).  The loop sums the
per-batch loss, the per-batch correct count and the per-batch example count;
`accuracy = 100 * correct / total` raises `ZeroDivisionError` when the split
is empty, before the mean loss is formed. -/
def evaluate_model (batch_size pad_token_id : Nat)
    (applyLoss : CrossEntropyLoss → List EvalExample → ℚ)
    (examples : List EvalExample) : Except PyError EvalMetrics :=
  let loss_fn := get_loss_fn PHASE.CLASSIFICATION pad_token_id
  let batches := chunks batch_size examples
  let test_loss := (batches.map (applyLoss loss_fn)).sum
  let correct := (batches.map batchCorrect).sum
  let total := (batches.map List.length).sum
  if total = 0 then Except.error PyError.zeroDivisionError
  else
    Except.ok
      { testLoss := test_loss / (batches.length : ℚ)
        testAccuracy := 100 * (correct : ℚ) / (total : ℚ) }

/-- The `STEPS` constants from `src/consts.py` read by the training loop. -/
structure StepsConfig where
  LOG_STEP : Nat
  SAVE_STEP : Nat
  EVAL_STEP : Nat
  WARMUP_STEPS : Nat

/-- The `training` section of the experiment configuration
(`seed`, `batch_size`, `epochs`, `learning_rate`). -/
structure TrainingConfig where
  seed : Nat
  batch_size : Nat
  epochs : Nat
  learning_rate : ℚ

/-- Framework-owned quantities the trainer observes but does not compute,
indexed by the global step at which they are observed: `loss.item()` of the
batch whose processing brought the counter to that step, the model and
optimizer `state_dict()` snapshots at that step, and the metrics that
`_evaluate_model` on the test split produces with the weights at that step
(the weights themselves being opaque framework state). -/
structure Framework where
  lossAt : Nat → ℚ
  modelStateAt : Nat → Nat
  optStateAt : Nat → Nat
  evalAt : Nat → EvalMetrics

/-- The mutable state threaded through `_train_model`'s loop: the global
`step` counter, the trainer's `best_loss`, the checkpoints written by
`save_checkpoint`, the `(step, loss)` scalars written by
`writer.add_scalar` in the logging branch, the steps at which
`_evaluate_model` ran, and the `metrics` dictionary (`none` models the
initial empty dict `{}`). -/
structure TrainState where
  step : Nat
  best_loss : WithTop ℚ
  saved : List Checkpoint
  logged : List (Nat × ℚ)
  evals : List Nat
  metrics : Option EvalMetrics
deriving DecidableEq

/-- The logging branch (trainer.py lines 308-323): every `LOG_STEP` steps,
record the scalar loss and fold it into `best_loss` with `min`. -/
def logBranch (steps : StepsConfig) (fw : Framework) (step : Nat)
    (st : TrainState) : TrainState :=
  if step % steps.LOG_STEP = 0 then
    { st with
      logged := st.logged ++ [(step, fw.lossAt step)]
      best_loss := min st.best_loss ((fw.lossAt step : ℚ) : WithTop ℚ) }
  else st

/-- The checkpointing branch (trainer.py lines 325-330): past the warmup
threshold and every `SAVE_STEP` steps, `save_checkpoint` writes a snapshot
whose `during_pretraining` flag records whether the current phase is
AUTOREGRESSIVE. -/
def saveBranch (phase_name : PHASE) (steps : StepsConfig) (fw : Framework)
    (epoch step : Nat) (st : TrainState) : TrainState :=
  if steps.WARMUP_STEPS ≤ step ∧ step % steps.SAVE_STEP = 0 then
    { st with
      saved := st.saved ++
        [{ epoch := epoch
           step := step
           model_state_dict := fw.modelStateAt step
           optimizer_state_dict := fw.optStateAt step
           best_loss := st.best_loss
           during_pretraining := phase_name == PHASE.AUTOREGRESSIVE }] }
  else st

/-- The evaluation branch (trainer.py lines 331-344): past the warmup
threshold and every `EVAL_STEP` steps, overwrite `metrics` with the result
of `_evaluate_model` on the test split. -/
def evalBranch (steps : StepsConfig) (fw : Framework) (step : Nat)
    (st : TrainState) : TrainState :=
  if steps.WARMUP_STEPS ≤ step ∧ step % steps.EVAL_STEP = 0 then
    { st with metrics := some (fw.evalAt step), evals := st.evals ++ [step] }
  else st

/-- One iteration of the inner batch loop (trainer.py lines 289-344):
zero gradients, forward, loss, backward, optimizer step (all framework
side effects behind the `fw` oracles), `step += 1`, then — only on the
coordinating worker — the logging, checkpointing and evaluation branches in
that order. -/
def processBatch (phase_name : PHASE) (steps : StepsConfig) (fw : Framework)
    (is_master : Bool) (epoch : Nat) (st : TrainState) : TrainState :=
  let step := st.step + 1
  if is_master then
    { evalBranch steps fw step
        (saveBranch phase_name steps fw epoch step
          (logBranch steps fw step st)) with
      step := step }
  else
    { st with step := step }

/-- One epoch of the inner loop: `for i, data in enumerate(data_loader)`,
one `processBatch` per batch. -/
def runEpoch (phase_name : PHASE) (steps : StepsConfig) (fw : Framework)
    (is_master : Bool) (numB epoch : Nat) (st : TrainState) : TrainState :=
  (List.range numB).foldl
    (fun s _ => processBatch phase_name steps fw is_master epoch s) st

/-- Embeds `len(data_loader)` for the training split: the number of batches the
DataLoader yields per epoch over a dataset of `train_size` examples
(`List.range train_size` stands in for the example indices; only the count
matters, the contents are behind the loss oracle). -/
def numBatches (batch_size train_size : Nat) : Nat :=
  (chunks batch_size (List.range train_size)).length

/-- Embeds `Trainer._train_model` (trainer.py lines 228-345) for one phase:
start from epoch 0 / step 0 / the trainer's current `best_loss`
(`best_loss_in`, `float('inf')` at construction), override all three from
the checkpoint when one was handed in (lines 249-255, together with the
model and optimizer state-dict loads, which are framework side effects),
then run epochs `start_epoch, ..., epochs - 1`. -/
def train_model (phase_name : PHASE) (checkpoint : Option Checkpoint)
    (best_loss_in : WithTop ℚ) (cfg : TrainingConfig) (steps : StepsConfig)
    (fw : Framework) (is_master : Bool) (train_size : Nat) : TrainState :=
  let start_epoch := checkpoint.elim 0 Checkpoint.epoch
  let step0 := checkpoint.elim 0 Checkpoint.step
  let best0 := checkpoint.elim best_loss_in Checkpoint.best_loss
  let nB := numBatches cfg.batch_size train_size
  (List.range' start_epoch (cfg.epochs - start_epoch)).foldl
    (fun st epoch => runEpoch phase_name steps fw is_master nB epoch st)
    { step := step0, best_loss := best0, saved := [], logged := [],
      evals := [], metrics := none }

/-- One `_train_model` call as scheduled by `train_and_evaluate_model`: the
phase and the checkpoint argument handed to it. -/
structure PhaseRun where
  phase : PHASE
  checkpoint : Option Checkpoint
deriving DecidableEq

/-- The phase schedule of `train_and_evaluate_model` (trainer.py lines
206-224): pretraining runs first — receiving the loaded checkpoint — when
`checkpoint is not None and checkpoint['during_pretraining']` or a pretrain
dataset is configured; the checkpoint is then set to `None` so
classification starts fresh.  Otherwise classification runs alone with the
loaded checkpoint. -/
def phasePlan (checkpoint : Option Checkpoint) (pretrain_configured : Bool) :
    List PhaseRun :=
  if checkpoint.elim false Checkpoint.during_pretraining || pretrain_configured then
    [⟨PHASE.AUTOREGRESSIVE, checkpoint⟩, ⟨PHASE.CLASSIFICATION, none⟩]
  else
    [⟨PHASE.CLASSIFICATION, checkpoint⟩]

/-- Embeds `Trainer.is_master_process` (trainer.py lines 181-183): rank 0. -/
def is_master_process (rank : Nat) : Bool :=
  rank == 0

/-- The two train states a full run produces: the pretraining phase's (when
it ran) and the classification phase's, whose `metrics` field is the run's
return value. -/
structure RunResult where
  pretrain : Option TrainState
  classification : TrainState
deriving DecidableEq

/-- Embeds `Trainer.train_and_evaluate_model` (trainer.py lines 192-226): load the
latest checkpoint (propagating the exception `get_latest_chkpt` can raise),
optionally run the AUTOREGRESSIVE phase with it and discard it, then run the
CLASSIFICATION phase and return its state.  `self.best_loss` starts at
`float('inf')` and persists across the two phases, so the classification
phase after pretraining inherits the pretraining phase's final
`best_loss`. -/
def train_and_evaluate_model (ckpt_dir : Option (List Checkpoint))
    (pretrain_configured : Bool) (cfg : TrainingConfig) (steps : StepsConfig)
    (fwAR fwCLS : Framework) (rank : Nat) (ar_size cls_size : Nat) :
    Except PyError RunResult :=
  match load_checkpoint ckpt_dir with
  | Except.error e => Except.error e
  | Except.ok checkpoint =>
    let is_master := is_master_process rank
    if checkpoint.elim false Checkpoint.during_pretraining || pretrain_configured then
      let pre := train_model PHASE.AUTOREGRESSIVE checkpoint ⊤ cfg steps fwAR
        is_master ar_size
      let cls := train_model PHASE.CLASSIFICATION none pre.best_loss cfg steps
        fwCLS is_master cls_size
      Except.ok ⟨some pre, cls⟩
    else
      let cls := train_model PHASE.CLASSIFICATION checkpoint ⊤ cfg steps fwCLS
        is_master cls_size
      Except.ok ⟨none, cls⟩

/-- A trivial framework oracle, used to instantiate theorems at concrete
inputs. -/
def trivialFramework : Framework :=
  { lossAt := fun _ => 0
    modelStateAt := fun _ => 0
    optStateAt := fun _ => 0
    evalAt := fun _ => ⟨0, 0⟩ }

/-! ### Helper lemmas -/

/-- The `min`-fold of the logged loss values over an initial best loss: the value
`best_loss` holds after the logging branch processed the list. -/
def loggedMin (b0 : WithTop ℚ) (L : List (Nat × ℚ)) : WithTop ℚ :=
  L.foldl (fun b p => min b ((p.2 : ℚ) : WithTop ℚ)) b0

lemma loggedMin_append (b0 : WithTop ℚ) (L : List (Nat × ℚ)) (x : Nat × ℚ) :
    loggedMin b0 (L ++ [x]) = min (loggedMin b0 L) ((x.2 : ℚ) : WithTop ℚ) := by
  simp [loggedMin, List.foldl_append]

lemma loggedMin_le (b0 : WithTop ℚ) (L : List (Nat × ℚ)) :
    loggedMin b0 L ≤ b0 := by
  induction L generalizing b0 with
  | nil => exact le_refl _
  | cons p L ih =>
      calc loggedMin b0 (p :: L) = loggedMin (min b0 _) L := rfl
        _ ≤ min b0 _ := ih _
        _ ≤ b0 := min_le_left _ _

lemma foldl_inv {σ : Type _} {α : Type _} (I : σ → Prop) (f : σ → α → σ)
    (hf : ∀ s a, I s → I (f s a)) :
    ∀ (l : List α) (s : σ), I s → I (l.foldl f s)
  | [], _, hs => hs
  | a :: l, s, hs => foldl_inv I f hf l (f s a) (hf s a hs)

lemma foldl_step_add {α : Type _} (g : TrainState → α → TrainState) (k : Nat)
    (hg : ∀ s a, (g s a).step = s.step + k) :
    ∀ (l : List α) (s : TrainState), (l.foldl g s).step = s.step + l.length * k := by
  intro l
  induction l with
  | nil => intro s; simp
  | cons a l ih =>
      intro s
      rw [List.foldl_cons, ih, hg, List.length_cons]
      ring

/-! Projection lemmas for the three coordinating-worker branches. -/

lemma logBranch_step (steps : StepsConfig) (fw : Framework) (s : Nat)
    (st : TrainState) : (logBranch steps fw s st).step = st.step := by
  unfold logBranch; split <;> rfl

lemma logBranch_saved (steps : StepsConfig) (fw : Framework) (s : Nat)
    (st : TrainState) : (logBranch steps fw s st).saved = st.saved := by
  unfold logBranch; split <;> rfl

lemma logBranch_evals (steps : StepsConfig) (fw : Framework) (s : Nat)
    (st : TrainState) : (logBranch steps fw s st).evals = st.evals := by
  unfold logBranch; split <;> rfl

lemma logBranch_metrics (steps : StepsConfig) (fw : Framework) (s : Nat)
    (st : TrainState) : (logBranch steps fw s st).metrics = st.metrics := by
  unfold logBranch; split <;> rfl

lemma logBranch_best_le (steps : StepsConfig) (fw : Framework) (s : Nat)
    (st : TrainState) : (logBranch steps fw s st).best_loss ≤ st.best_loss := by
  unfold logBranch; split
  · exact min_le_left _ _
  · exact le_refl _

lemma logBranch_cases (steps : StepsConfig) (fw : Framework) (s : Nat)
    (st : TrainState) :
    logBranch steps fw s st = st ∨
      logBranch steps fw s st =
        { st with
          logged := st.logged ++ [(s, fw.lossAt s)]
          best_loss := min st.best_loss ((fw.lossAt s : ℚ) : WithTop ℚ) } := by
  unfold logBranch; split
  · exact Or.inr rfl
  · exact Or.inl rfl

lemma saveBranch_best_loss (phase_name : PHASE) (steps : StepsConfig)
    (fw : Framework) (e s : Nat) (st : TrainState) :
    (saveBranch phase_name steps fw e s st).best_loss = st.best_loss := by
  unfold saveBranch; split <;> rfl

lemma saveBranch_logged (phase_name : PHASE) (steps : StepsConfig)
    (fw : Framework) (e s : Nat) (st : TrainState) :
    (saveBranch phase_name steps fw e s st).logged = st.logged := by
  unfold saveBranch; split <;> rfl

lemma saveBranch_step (phase_name : PHASE) (steps : StepsConfig)
    (fw : Framework) (e s : Nat) (st : TrainState) :
    (saveBranch phase_name steps fw e s st).step = st.step := by
  unfold saveBranch; split <;> rfl

lemma saveBranch_evals (phase_name : PHASE) (steps : StepsConfig)
    (fw : Framework) (e s : Nat) (st : TrainState) :
    (saveBranch phase_name steps fw e s st).evals = st.evals := by
  unfold saveBranch; split <;> rfl

lemma saveBranch_metrics (phase_name : PHASE) (steps : StepsConfig)
    (fw : Framework) (e s : Nat) (st : TrainState) :
    (saveBranch phase_name steps fw e s st).metrics = st.metrics := by
  unfold saveBranch; split <;> rfl

lemma saveBranch_saved_mem (phase_name : PHASE) (steps : StepsConfig)
    (fw : Framework) (e s : Nat) (st : TrainState) :
    ∀ c ∈ (saveBranch phase_name steps fw e s st).saved,
      c ∈ st.saved ∨ c.during_pretraining = (phase_name == PHASE.AUTOREGRESSIVE) := by
  unfold saveBranch; split
  · intro c hc
    rcases List.mem_append.mp hc with h | h
    · exact Or.inl h
    · simp only [List.mem_singleton] at h
      subst h
      exact Or.inr rfl
  · exact fun c hc => Or.inl hc

lemma saveBranch_saved_of (phase_name : PHASE) (steps : StepsConfig)
    (fw : Framework) (e s : Nat) (st : TrainState)
    (h : ¬ s % steps.SAVE_STEP = 0) :
    (saveBranch phase_name steps fw e s st).saved = st.saved := by
  unfold saveBranch
  rw [if_neg (by exact fun hc => h hc.2)]

lemma evalBranch_best_loss (steps : StepsConfig) (fw : Framework) (s : Nat)
    (st : TrainState) : (evalBranch steps fw s st).best_loss = st.best_loss := by
  unfold evalBranch; split <;> rfl

lemma evalBranch_logged (steps : StepsConfig) (fw : Framework) (s : Nat)
    (st : TrainState) : (evalBranch steps fw s st).logged = st.logged := by
  unfold evalBranch; split <;> rfl

lemma evalBranch_saved (steps : StepsConfig) (fw : Framework) (s : Nat)
    (st : TrainState) : (evalBranch steps fw s st).saved = st.saved := by
  unfold evalBranch; split <;> rfl

lemma evalBranch_step (steps : StepsConfig) (fw : Framework) (s : Nat)
    (st : TrainState) : (evalBranch steps fw s st).step = st.step := by
  unfold evalBranch; split <;> rfl

lemma evalBranch_metrics_of (steps : StepsConfig) (fw : Framework) (s : Nat)
    (st : TrainState) (h : ¬ s % steps.EVAL_STEP = 0) :
    (evalBranch steps fw s st).metrics = st.metrics := by
  unfold evalBranch
  rw [if_neg (by exact fun hc => h hc.2)]

lemma evalBranch_evals_of (steps : StepsConfig) (fw : Framework) (s : Nat)
    (st : TrainState) (h : ¬ s % steps.EVAL_STEP = 0) :
    (evalBranch steps fw s st).evals = st.evals := by
  unfold evalBranch
  rw [if_neg (by exact fun hc => h hc.2)]

/-! Projection lemmas for one batch iteration. -/

lemma processBatch_not_master (phase_name : PHASE) (steps : StepsConfig)
    (fw : Framework) (e : Nat) (st : TrainState) :
    processBatch phase_name steps fw false e st = { st with step := st.step + 1 } :=
  rfl

lemma processBatch_step (phase_name : PHASE) (steps : StepsConfig)
    (fw : Framework) (m : Bool) (e : Nat) (st : TrainState) :
    (processBatch phase_name steps fw m e st).step = st.step + 1 := by
  cases m <;> rfl

lemma processBatch_best_le (phase_name : PHASE) (steps : StepsConfig)
    (fw : Framework) (m : Bool) (e : Nat) (st : TrainState) :
    (processBatch phase_name steps fw m e st).best_loss ≤ st.best_loss := by
  cases m
  · exact le_refl _
  · show (evalBranch steps fw _ (saveBranch phase_name steps fw e _
      (logBranch steps fw _ st))).best_loss ≤ st.best_loss
    rw [evalBranch_best_loss, saveBranch_best_loss]
    exact logBranch_best_le _ _ _ _

lemma processBatch_loggedMin (phase_name : PHASE) (steps : StepsConfig)
    (fw : Framework) (m : Bool) (e : Nat) (b0 : WithTop ℚ) (st : TrainState)
    (h : st.best_loss = loggedMin b0 st.logged) :
    (processBatch phase_name steps fw m e st).best_loss =
      loggedMin b0 (processBatch phase_name steps fw m e st).logged := by
  cases m
  · exact h
  · show (evalBranch steps fw _ (saveBranch phase_name steps fw e _
        (logBranch steps fw _ st))).best_loss =
      loggedMin b0 (evalBranch steps fw _ (saveBranch phase_name steps fw e _
        (logBranch steps fw _ st))).logged
    rw [evalBranch_best_loss, saveBranch_best_loss, evalBranch_logged,
      saveBranch_logged]
    rcases logBranch_cases steps fw (st.step + 1) st with hc | hc <;> rw [hc]
    · exact h
    · show min st.best_loss _ = loggedMin b0 (st.logged ++ [(st.step + 1, _)])
      rw [loggedMin_append, h]

lemma processBatch_logged_entries (phase_name : PHASE) (steps : StepsConfig)
    (fw : Framework) (m : Bool) (e : Nat) (st : TrainState)
    (h : ∀ p ∈ st.logged, p.2 = fw.lossAt p.1 ∧ p.1 ≤ st.step) :
    ∀ p ∈ (processBatch phase_name steps fw m e st).logged,
      p.2 = fw.lossAt p.1 ∧ p.1 ≤ (processBatch phase_name steps fw m e st).step := by
  rw [processBatch_step]
  cases m
  · exact fun p hp => ⟨(h p hp).1, le_trans (h p hp).2 (Nat.le_succ _)⟩
  · show ∀ p ∈ (evalBranch steps fw _ (saveBranch phase_name steps fw e _
        (logBranch steps fw _ st))).logged, _
    rw [evalBranch_logged, saveBranch_logged]
    rcases logBranch_cases steps fw (st.step + 1) st with hc | hc <;> rw [hc]
    · exact fun p hp => ⟨(h p hp).1, le_trans (h p hp).2 (Nat.le_succ _)⟩
    · intro p hp
      rcases List.mem_append.mp hp with hp | hp
      · exact ⟨(h p hp).1, le_trans (h p hp).2 (Nat.le_succ _)⟩
      · simp only [List.mem_singleton] at hp
        subst hp
        exact ⟨rfl, le_refl _⟩

lemma processBatch_saved_mem (phase_name : PHASE) (steps : StepsConfig)
    (fw : Framework) (m : Bool) (e : Nat) (st : TrainState) :
    ∀ c ∈ (processBatch phase_name steps fw m e st).saved,
      c ∈ st.saved ∨ c.during_pretraining = (phase_name == PHASE.AUTOREGRESSIVE) := by
  cases m
  · exact fun c hc => Or.inl hc
  · show ∀ c ∈ (evalBranch steps fw _ (saveBranch phase_name steps fw e _
        (logBranch steps fw _ st))).saved, _
    rw [evalBranch_saved]
    intro c hc
    rcases saveBranch_saved_mem phase_name steps fw e (st.step + 1)
        (logBranch steps fw (st.step + 1) st) c hc with hm | hm
    · rw [logBranch_saved] at hm
      exact Or.inl hm
    · exact Or.inr hm

lemma processBatch_saved_of (phase_name : PHASE) (steps : StepsConfig)
    (fw : Framework) (m : Bool) (e : Nat) (st : TrainState)
    (h : ¬ (st.step + 1) % steps.SAVE_STEP = 0) :
    (processBatch phase_name steps fw m e st).saved = st.saved := by
  cases m
  · rfl
  · show (evalBranch steps fw _ (saveBranch phase_name steps fw e _
        (logBranch steps fw _ st))).saved = st.saved
    rw [evalBranch_saved, saveBranch_saved_of _ _ _ _ _ _ h, logBranch_saved]

lemma processBatch_metrics_of (phase_name : PHASE) (steps : StepsConfig)
    (fw : Framework) (m : Bool) (e : Nat) (st : TrainState)
    (h : ¬ (st.step + 1) % steps.EVAL_STEP = 0) :
    (processBatch phase_name steps fw m e st).metrics = st.metrics := by
  cases m
  · rfl
  · show (evalBranch steps fw _ (saveBranch phase_name steps fw e _
        (logBranch steps fw _ st))).metrics = st.metrics
    rw [evalBranch_metrics_of _ _ _ _ h, saveBranch_metrics, logBranch_metrics]

lemma processBatch_evals_of (phase_name : PHASE) (steps : StepsConfig)
    (fw : Framework) (m : Bool) (e : Nat) (st : TrainState)
    (h : ¬ (st.step + 1) % steps.EVAL_STEP = 0) :
    (processBatch phase_name steps fw m e st).evals = st.evals := by
  cases m
  · rfl
  · show (evalBranch steps fw _ (saveBranch phase_name steps fw e _
        (logBranch steps fw _ st))).evals = st.evals
    rw [evalBranch_evals_of _ _ _ _ h, saveBranch_evals, logBranch_evals]

/-! Lemmas about whole epochs and whole phases. -/

lemma runEpoch_step (phase_name : PHASE) (steps : StepsConfig) (fw : Framework)
    (m : Bool) (nB e : Nat) (st : TrainState) :
    (runEpoch phase_name steps fw m nB e st).step = st.step + nB := by
  unfold runEpoch
  rw [foldl_step_add _ 1 (fun s _ => processBatch_step phase_name steps fw m e s)]
  simp

lemma runEpoch_inv (I : TrainState → Prop) (phase_name : PHASE)
    (steps : StepsConfig) (fw : Framework) (m : Bool) (nB e : Nat)
    (hI : ∀ st, I st → I (processBatch phase_name steps fw m e st)) :
    ∀ st, I st → I (runEpoch phase_name steps fw m nB e st) :=
  fun st h => foldl_inv I _ (fun s _ hs => hI s hs) (List.range nB) st h

lemma train_model_inv (I : TrainState → Prop) (phase_name : PHASE)
    (checkpoint : Option Checkpoint) (best_loss_in : WithTop ℚ)
    (cfg : TrainingConfig) (steps : StepsConfig) (fw : Framework) (m : Bool)
    (train_size : Nat)
    (hI : ∀ e st, I st → I (processBatch phase_name steps fw m e st))
    (h0 : I { step := checkpoint.elim 0 Checkpoint.step,
              best_loss := checkpoint.elim best_loss_in Checkpoint.best_loss,
              saved := [], logged := [], evals := [], metrics := none }) :
    I (train_model phase_name checkpoint best_loss_in cfg steps fw m train_size) :=
  foldl_inv I _
    (fun s e hs => runEpoch_inv I phase_name steps fw m _ e (hI e) s hs) _ _ h0

lemma train_model_step (phase_name : PHASE) (checkpoint : Option Checkpoint)
    (best_loss_in : WithTop ℚ) (cfg : TrainingConfig) (steps : StepsConfig)
    (fw : Framework) (m : Bool) (train_size : Nat) :
    (train_model phase_name checkpoint best_loss_in cfg steps fw m train_size).step =
      checkpoint.elim 0 Checkpoint.step +
        (cfg.epochs - checkpoint.elim 0 Checkpoint.epoch) *
          numBatches cfg.batch_size train_size := by
  unfold train_model
  rw [foldl_step_add _ (numBatches cfg.batch_size train_size)
    (fun s e => runEpoch_step phase_name steps fw m _ e s)]
  simp [Nat.mul_comm]

lemma train_model_loggedMin (phase_name : PHASE) (checkpoint : Option Checkpoint)
    (best_loss_in : WithTop ℚ) (cfg : TrainingConfig) (steps : StepsConfig)
    (fw : Framework) (m : Bool) (train_size : Nat) :
    (train_model phase_name checkpoint best_loss_in cfg steps fw m train_size).best_loss =
      loggedMin (checkpoint.elim best_loss_in Checkpoint.best_loss)
        (train_model phase_name checkpoint best_loss_in cfg steps fw m train_size).logged :=
  train_model_inv
    (fun st => st.best_loss =
      loggedMin (checkpoint.elim best_loss_in Checkpoint.best_loss) st.logged)
    phase_name checkpoint best_loss_in cfg steps fw m train_size
    (fun e st h => processBatch_loggedMin phase_name steps fw m e _ st h)
    rfl

lemma train_model_logged_entries (phase_name : PHASE)
    (checkpoint : Option Checkpoint) (best_loss_in : WithTop ℚ)
    (cfg : TrainingConfig) (steps : StepsConfig) (fw : Framework) (m : Bool)
    (train_size : Nat) :
    ∀ p ∈ (train_model phase_name checkpoint best_loss_in cfg steps fw m train_size).logged,
      p.2 = fw.lossAt p.1 ∧
        p.1 ≤ (train_model phase_name checkpoint best_loss_in cfg steps fw m train_size).step :=
  train_model_inv
    (fun st => ∀ p ∈ st.logged, p.2 = fw.lossAt p.1 ∧ p.1 ≤ st.step)
    phase_name checkpoint best_loss_in cfg steps fw m train_size
    (fun e st h => processBatch_logged_entries phase_name steps fw m e st h)
    (by intro p hp; exact absurd hp (List.not_mem_nil p))

lemma train_model_saved_flag (phase_name : PHASE)
    (checkpoint : Option Checkpoint) (best_loss_in : WithTop ℚ)
    (cfg : TrainingConfig) (steps : StepsConfig) (fw : Framework) (m : Bool)
    (train_size : Nat) :
    ∀ c ∈ (train_model phase_name checkpoint best_loss_in cfg steps fw m train_size).saved,
      c.during_pretraining = (phase_name == PHASE.AUTOREGRESSIVE) :=
  train_model_inv
    (fun st => ∀ c ∈ st.saved,
      c.during_pretraining = (phase_name == PHASE.AUTOREGRESSIVE))
    phase_name checkpoint best_loss_in cfg steps fw m train_size
    (fun e st h c hc =>
      (processBatch_saved_mem phase_name steps fw m e st c hc).elim
        (fun hm => h c hm) id)
    (by intro c hc; exact absurd hc (List.not_mem_nil c))

lemma train_model_not_master (phase_name : PHASE)
    (checkpoint : Option Checkpoint) (best_loss_in : WithTop ℚ)
    (cfg : TrainingConfig) (steps : StepsConfig) (fw : Framework)
    (train_size : Nat) :
    (train_model phase_name checkpoint best_loss_in cfg steps fw false train_size).saved = [] ∧
    (train_model phase_name checkpoint best_loss_in cfg steps fw false train_size).logged = [] ∧
    (train_model phase_name checkpoint best_loss_in cfg steps fw false train_size).evals = [] ∧
    (train_model phase_name checkpoint best_loss_in cfg steps fw false train_size).metrics = none ∧
    (train_model phase_name checkpoint best_loss_in cfg steps fw false train_size).best_loss =
      checkpoint.elim best_loss_in Checkpoint.best_loss :=
  train_model_inv
    (fun st => st.saved = [] ∧ st.logged = [] ∧ st.evals = [] ∧
      st.metrics = none ∧
      st.best_loss = checkpoint.elim best_loss_in Checkpoint.best_loss)
    phase_name checkpoint best_loss_in cfg steps fw false train_size
    (fun e st h => by rw [processBatch_not_master]; exact h)
    ⟨rfl, rfl, rfl, rfl, rfl⟩

/-! Lemmas about DataLoader batching. -/

lemma chunks_nil (B : Nat) : chunks B ([] : List α) = [] := by
  cases B <;> simp [chunks]

lemma chunks_cons (B : Nat) (x : α) (xs : List α) :
    chunks (B + 1) (x :: xs) =
      (x :: xs).take (B + 1) :: chunks (B + 1) (xs.drop B) := by
  simp [chunks]

lemma chunks_join_aux (B : Nat) :
    ∀ (n : Nat) (l : List α), l.length ≤ n → (chunks (B + 1) l).flatten = l := by
  intro n
  induction n with
  | zero =>
      intro l h
      rw [List.length_eq_zero.mp (Nat.le_zero.mp h), chunks_nil, List.flatten_nil]
  | succ n ih =>
      intro l h
      match l with
      | [] => rw [chunks_nil, List.flatten_nil]
      | x :: xs =>
          rw [chunks_cons, List.flatten_cons,
            ih (xs.drop B) (by rw [List.length_drop]; simp at h; omega),
            List.take_succ_cons, List.cons_append, List.take_append_drop]

lemma chunks_join (B : Nat) (hB : 0 < B) (l : List α) :
    (chunks B l).flatten = l := by
  cases B with
  | zero => exact absurd hB (by simp)
  | succ B => exact chunks_join_aux B l.length l (le_refl _)

lemma chunks_length_aux (B : Nat) :
    ∀ (n : Nat) (l : List α), l.length ≤ n →
      (chunks (B + 1) l).length = (l.length + B) / (B + 1) := by
  intro n
  induction n with
  | zero =>
      intro l h
      rw [List.length_eq_zero.mp (Nat.le_zero.mp h), chunks_nil]
      simp [Nat.div_eq_of_lt]
  | succ n ih =>
      intro l h
      match l with
      | [] => rw [chunks_nil]; simp [Nat.div_eq_of_lt]
      | x :: xs =>
          rw [chunks_cons, List.length_cons,
            ih (xs.drop B) (by rw [List.length_drop]; simp at h; omega),
            List.length_drop, List.length_cons]
          have h1 : xs.length + 1 + B = xs.length + (B + 1) := by omega
          rw [h1, Nat.add_div_right _ (Nat.succ_pos B)]
          rcases Nat.le_total xs.length B with hle | hle
          · rw [Nat.sub_eq_zero_of_le hle, Nat.zero_add,
              Nat.div_eq_of_lt (Nat.lt_succ_of_le hle),
              Nat.div_eq_of_lt (Nat.lt_succ_of_le (le_refl B))]
          · rw [Nat.sub_add_cancel hle]

lemma chunks_length (B : Nat) (hB : 0 < B) (l : List α) :
    (chunks B l).length = (l.length + B - 1) / B := by
  cases B with
  | zero => exact absurd hB (by simp)
  | succ B =>
      rw [chunks_length_aux B l.length l (le_refl _)]
      congr 1

lemma sum_map_join (f : List α → Nat) (hnil : f [] = 0)
    (happ : ∀ l1 l2 : List α, f (l1 ++ l2) = f l1 + f l2) :
    ∀ L : List (List α), (L.map f).sum = f L.flatten := by
  intro L
  induction L with
  | nil => simpa using hnil.symm
  | cons a L ih => rw [List.map_cons, List.sum_cons, List.flatten_cons, happ, ih]

lemma chunks_sum_length (B : Nat) (hB : 0 < B) (l : List α) :
    ((chunks B l).map List.length).sum = l.length := by
  rw [sum_map_join List.length rfl (fun l1 l2 => List.length_append l1 l2),
    chunks_join B hB]

lemma chunks_sum_correct (B : Nat) (hB : 0 < B) (l : List EvalExample) :
    ((chunks B l).map batchCorrect).sum =
      (l.filter (fun e => argmax e.logits == e.label)).length := by
  rw [sum_map_join batchCorrect rfl
    (fun l1 l2 => by simp [batchCorrect, List.filter_append]),
    chunks_join B hB]
  exact rfl

lemma numBatches_eq (B M : Nat) (hB : 0 < B) :
    numBatches B M = (M + B - 1) / B := by
  rw [numBatches, chunks_length B hB, List.length_range]

lemma numBatches_pos (B M : Nat) (hB : 0 < B) (hM : 0 < M) :
    0 < numBatches B M := by
  rw [numBatches_eq B M hB]
  exact (Nat.one_le_div_iff hB).mpr (by omega)

/-! Lemmas about the latest-checkpoint scan. -/

lemma maxByStep_cons (c b : Checkpoint) (cs : List Checkpoint) :
    maxByStep c (b :: cs) = maxByStep (if c.step < b.step then b else c) cs :=
  rfl

lemma maxByStep_mem (c : Checkpoint) (cs : List Checkpoint) :
    maxByStep c cs ∈ c :: cs := by
  induction cs generalizing c with
  | nil => exact List.mem_singleton.mpr rfl
  | cons b cs ih =>
      rw [maxByStep_cons]
      rcases List.mem_cons.mp (ih (if c.step < b.step then b else c)) with h | h
      · rw [h]
        split
        · exact List.mem_cons_of_mem _ (List.mem_cons_self _ _)
        · exact List.mem_cons_self _ _
      · exact List.mem_cons_of_mem _ (List.mem_cons_of_mem _ h)

lemma le_maxByStep (c : Checkpoint) (cs : List Checkpoint) :
    ∀ x ∈ c :: cs, x.step ≤ (maxByStep c cs).step := by
  induction cs generalizing c with
  | nil =>
      intro x hx
      rw [List.mem_singleton.mp hx]
      exact le_refl _
  | cons b cs ih =>
      intro x hx
      rw [maxByStep_cons]
      have hseed : c.step ≤ (if c.step < b.step then b else c).step ∧
          b.step ≤ (if c.step < b.step then b else c).step := by
        split <;> omega
      rcases List.mem_cons.mp hx with h | h
      · subst h
        exact le_trans hseed.1
          (ih _ _ (List.mem_cons_self _ _))
      · rcases List.mem_cons.mp h with h | h
        · subst h
          exact le_trans hseed.2
            (ih _ _ (List.mem_cons_self _ _))
        · exact ih _ _ (List.mem_cons_of_mem _ h)

/-! ### Claim theorems -/

/-- C9: evaluating on a split with zero examples fails with a division error
(the division by the accumulated total example count is not guarded), rather
than returning a metrics mapping. -/
theorem c9_empty_split_division_error (batch_size pad_token_id : Nat)
    (applyLoss : CrossEntropyLoss → List EvalExample → ℚ) :
    evaluate_model batch_size pad_token_id applyLoss [] =
      Except.error PyError.zeroDivisionError := by
  simp [evaluate_model, chunks_nil]

/-- C6: the evaluate operation always selects the classification loss
function — plain cross-entropy with no ignore-index — for every invocation:
its result only depends on the loss oracle's value at
`CrossEntropyLoss.mk none`, which is `get_loss_fn PHASE.CLASSIFICATION`'s
value for every padding id, and is the loss of the triggering phase exactly
when that phase is CLASSIFICATION. -/
theorem c6_eval_classification_loss (trigger : PHASE) (batch_size pad_token_id : Nat)
    (applyLoss : CrossEntropyLoss → List EvalExample → ℚ)
    (examples : List EvalExample) :
    evaluate_model batch_size pad_token_id applyLoss examples =
      evaluate_model batch_size pad_token_id
        (fun _ b => applyLoss (CrossEntropyLoss.mk none) b) examples ∧
    get_loss_fn PHASE.CLASSIFICATION pad_token_id = CrossEntropyLoss.mk none ∧
    ((get_loss_fn trigger pad_token_id).ignore_index = none ↔
      trigger = PHASE.CLASSIFICATION) := by
  refine ⟨rfl, rfl, ?_⟩
  cases trigger <;> simp [get_loss_fn]

/-- C2 counterexample: when the checkpoint directory exists but is empty, the
latest-checkpoint lookup does not return "no checkpoint": it raises
`ValueError` (Python `max()` over the empty `iterdir()` sequence). -/
theorem c2_load_latest_counterexample :
    load_checkpoint (some ([] : List Checkpoint)) =
        Except.error PyError.valueError ∧
      load_checkpoint (some ([] : List Checkpoint)) ≠ Except.ok none :=
  ⟨rfl, fun h => Except.noConfusion h⟩

/-- C2 amended: the latest-checkpoint lookup returns the entry whose step is
the maximum of the steps present when the directory has entries; it returns
nothing when the directory is absent; and it raises `ValueError` when the
directory exists but is empty. -/
theorem c2_load_latest_corrected (dir : Option (List Checkpoint)) :
    (dir = none → load_checkpoint dir = Except.ok none) ∧
    (dir = some [] → load_checkpoint dir = Except.error PyError.valueError) ∧
    (∀ c cs, dir = some (c :: cs) →
      ∃ r, load_checkpoint dir = Except.ok (some r) ∧ r ∈ c :: cs ∧
        ∀ x ∈ c :: cs, x.step ≤ r.step) := by
  refine ⟨?_, ?_, ?_⟩
  · rintro rfl; rfl
  · rintro rfl; rfl
  · rintro c cs rfl
    exact ⟨maxByStep c cs, rfl, maxByStep_mem c cs, le_maxByStep c cs⟩

/-- C2 witness: the corrected lookup behaviour at a concrete two-entry
directory. -/
theorem c2_load_latest_witness :
    ∃ r, load_checkpoint
        (some [Checkpoint.mk 0 3 0 0 ((1 : ℚ) : WithTop ℚ) false,
               Checkpoint.mk 1 7 0 0 ((2 : ℚ) : WithTop ℚ) true]) =
      Except.ok (some r) ∧
      r ∈ [Checkpoint.mk 0 3 0 0 ((1 : ℚ) : WithTop ℚ) false,
           Checkpoint.mk 1 7 0 0 ((2 : ℚ) : WithTop ℚ) true] ∧
      ∀ x ∈ [Checkpoint.mk 0 3 0 0 ((1 : ℚ) : WithTop ℚ) false,
             Checkpoint.mk 1 7 0 0 ((2 : ℚ) : WithTop ℚ) true],
        x.step ≤ r.step :=
  (c2_load_latest_corrected _).2.2 _ _ rfl

/-- C1 counterexample: with a loaded checkpoint whose `during_pretraining`
flag is false AND a configured pretrain dataset, classification does NOT
proceed directly — the run schedules the autoregressive phase first and even
hands it the classification checkpoint, because the gating condition
`or self._pretrain_dataset is not None` ignores checkpoint presence. -/
theorem c1_pretrain_gating_counterexample :
    (Checkpoint.mk 3 7 0 0 ((1 : ℚ) : WithTop ℚ) false).during_pretraining = false ∧
    phasePlan (some (Checkpoint.mk 3 7 0 0 ((1 : ℚ) : WithTop ℚ) false)) true ≠
      [⟨PHASE.CLASSIFICATION, some (Checkpoint.mk 3 7 0 0 ((1 : ℚ) : WithTop ℚ) false)⟩] ∧
    (phasePlan (some (Checkpoint.mk 3 7 0 0 ((1 : ℚ) : WithTop ℚ) false)) true).head? =
      some ⟨PHASE.AUTOREGRESSIVE,
        some (Checkpoint.mk 3 7 0 0 ((1 : ℚ) : WithTop ℚ) false)⟩ := by
  refine ⟨rfl, ?_, rfl⟩
  simp [phasePlan]

/-- C1 amended: classification proceeds directly — resuming from the
checkpoint's epoch, step and best_loss — exactly when the loaded
checkpoint's `during_pretraining` flag is false AND no pretrain dataset is
configured; the pretraining phase executes first whenever the flag is true
or a pretrain dataset is configured, even when a checkpoint is present (it
is then handed to the pretraining phase). -/
theorem c1_pretrain_gating_corrected (ckpt : Option Checkpoint) (pc : Bool)
    (cfg : TrainingConfig) (steps : StepsConfig) (fw : Framework) (m : Bool)
    (cls_size : Nat) :
    (ckpt.elim false Checkpoint.during_pretraining = false → pc = false →
      phasePlan ckpt pc = [⟨PHASE.CLASSIFICATION, ckpt⟩] ∧
      ∀ c, ckpt = some c →
        (train_model PHASE.CLASSIFICATION ckpt ⊤ cfg steps fw m cls_size).step =
          c.step + (cfg.epochs - c.epoch) * numBatches cfg.batch_size cls_size ∧
        (train_model PHASE.CLASSIFICATION ckpt ⊤ cfg steps fw m cls_size).best_loss ≤
          c.best_loss) ∧
    (ckpt.elim false Checkpoint.during_pretraining = true ∨ pc = true →
      phasePlan ckpt pc =
        [⟨PHASE.AUTOREGRESSIVE, ckpt⟩, ⟨PHASE.CLASSIFICATION, none⟩]) := by
  constructor
  · intro h1 h2
    constructor
    · unfold phasePlan
      rw [h1, h2]
      rfl
    · rintro c rfl
      constructor
      · rw [train_model_step]
        rfl
      · rw [train_model_loggedMin]
        exact loggedMin_le _ _
  · intro h
    unfold phasePlan
    rcases h with h | h
    · rw [h]
      rfl
    · rw [h, Bool.or_true]
      rfl

/-- C1 witness: the corrected gating at a concrete classification-only
resume — the plan is a single classification run and the phase resumes from
the checkpoint's step 5 and epoch 1. -/
theorem c1_pretrain_gating_witness :
    phasePlan (some (Checkpoint.mk 1 5 0 0 ((2 : ℚ) : WithTop ℚ) false)) false =
      [⟨PHASE.CLASSIFICATION, some (Checkpoint.mk 1 5 0 0 ((2 : ℚ) : WithTop ℚ) false)⟩] ∧
    (train_model PHASE.CLASSIFICATION
        (some (Checkpoint.mk 1 5 0 0 ((2 : ℚ) : WithTop ℚ) false)) ⊤
        ⟨0, 1, 3, 0⟩ ⟨1, 1, 1, 0⟩ trivialFramework true 2).step =
      5 + (3 - 1) * numBatches 1 2 := by
  have h := (c1_pretrain_gating_corrected
    (some (Checkpoint.mk 1 5 0 0 ((2 : ℚ) : WithTop ℚ) false)) false
    ⟨0, 1, 3, 0⟩ ⟨1, 1, 1, 0⟩ trivialFramework true 2).1 rfl rfl
  exact ⟨h.1, (h.2 _ rfl).1⟩

/-- C4: within a phase the global step counter is incremented exactly once
per batch, advances by the whole batch count over every epoch (hence is
strictly increasing across every epoch boundary whenever the loader yields
at least one batch), is never reset mid-phase, and the phase's final step
equals the checkpoint's stored step (0 on a fresh start) plus one increment
per processed batch. -/
theorem c4_step_monotone (phase_name : PHASE) (checkpoint : Option Checkpoint)
    (best_loss_in : WithTop ℚ) (cfg : TrainingConfig) (steps : StepsConfig)
    (fw : Framework) (m : Bool) (train_size : Nat) :
    (∀ e st, (processBatch phase_name steps fw m e st).step = st.step + 1) ∧
    (∀ e st,
      (runEpoch phase_name steps fw m (numBatches cfg.batch_size train_size) e st).step =
        st.step + numBatches cfg.batch_size train_size) ∧
    (0 < cfg.batch_size → 0 < train_size →
      ∀ e st, st.step <
        (runEpoch phase_name steps fw m (numBatches cfg.batch_size train_size) e st).step) ∧
    (train_model phase_name checkpoint best_loss_in cfg steps fw m train_size).step =
      checkpoint.elim 0 Checkpoint.step +
        (cfg.epochs - checkpoint.elim 0 Checkpoint.epoch) *
          numBatches cfg.batch_size train_size := by
  refine ⟨fun e st => processBatch_step phase_name steps fw m e st,
    fun e st => runEpoch_step phase_name steps fw m _ e st, ?_,
    train_model_step phase_name checkpoint best_loss_in cfg steps fw m train_size⟩
  intro hB hM e st
  rw [runEpoch_step]
  have := numBatches_pos cfg.batch_size train_size hB hM
  omega

/-- C4 witness: across one epoch boundary at a concrete resumed step, the
counter strictly increases. -/
theorem c4_step_monotone_witness :
    (TrainState.mk 5 ⊤ [] [] [] none).step <
      (runEpoch PHASE.CLASSIFICATION ⟨1, 1, 1, 0⟩ trivialFramework true
        (numBatches 1 2) 0 (TrainState.mk 5 ⊤ [] [] [] none)).step :=
  (c4_step_monotone PHASE.CLASSIFICATION none ⊤ ⟨0, 1, 1, 0⟩ ⟨1, 1, 1, 0⟩
    trivialFramework true 2).2.2.1 (by decide) (by decide) 0
    (TrainState.mk 5 ⊤ [] [] [] none)

/-- C5: `best_loss` is monotonically non-increasing — each batch can only
lower it (via `min` with the newly observed loss) — and at phase end it
equals the `min`-fold of every loss value recorded by the logging branch
over the starting value (the checkpoint's `best_loss` on resume, else the
trainer's incoming value, `float('inf')` on a fresh run); every recorded
value is the loss the framework produced at its step, at or before the
final step. -/
theorem c5_best_loss_min (phase_name : PHASE) (checkpoint : Option Checkpoint)
    (best_loss_in : WithTop ℚ) (cfg : TrainingConfig) (steps : StepsConfig)
    (fw : Framework) (m : Bool) (train_size : Nat) :
    (∀ e st, (processBatch phase_name steps fw m e st).best_loss ≤ st.best_loss) ∧
    (train_model phase_name checkpoint best_loss_in cfg steps fw m train_size).best_loss =
      loggedMin (checkpoint.elim best_loss_in Checkpoint.best_loss)
        (train_model phase_name checkpoint best_loss_in cfg steps fw m train_size).logged ∧
    (train_model phase_name checkpoint best_loss_in cfg steps fw m train_size).best_loss ≤
      checkpoint.elim best_loss_in Checkpoint.best_loss ∧
    (∀ p ∈ (train_model phase_name checkpoint best_loss_in cfg steps fw m train_size).logged,
      p.2 = fw.lossAt p.1 ∧
        p.1 ≤ (train_model phase_name checkpoint best_loss_in cfg steps fw m train_size).step) := by
  refine ⟨fun e st => processBatch_best_le phase_name steps fw m e st,
    train_model_loggedMin phase_name checkpoint best_loss_in cfg steps fw m train_size,
    ?_,
    train_model_logged_entries phase_name checkpoint best_loss_in cfg steps fw m train_size⟩
  rw [train_model_loggedMin]
  exact loggedMin_le _ _

/-- C5 witness: a concrete batch step can only lower `best_loss`. -/
theorem c5_best_loss_min_witness :
    (processBatch PHASE.CLASSIFICATION ⟨1, 1, 1, 0⟩ trivialFramework true 0
        (TrainState.mk 0 ⊤ [] [] [] none)).best_loss ≤
      (TrainState.mk 0 ⊤ [] [] [] none).best_loss :=
  (c5_best_loss_min PHASE.CLASSIFICATION none ⊤ ⟨0, 1, 1, 0⟩ ⟨1, 1, 1, 0⟩
    trivialFramework true 2).1 0 (TrainState.mk 0 ⊤ [] [] [] none)

/-- C7: on a non-empty evaluation split, evaluate returns a mapping whose
Test Accuracy lies in [0, 100] and equals 100 times the count of
argmax-over-classes matches divided by the total example count, and whose
Test Loss equals the mean of the per-batch losses over ceil(M / B)
batches. -/
theorem c7_eval_metrics (batch_size pad_token_id : Nat)
    (applyLoss : CrossEntropyLoss → List EvalExample → ℚ)
    (examples : List EvalExample) (hB : 0 < batch_size) (hM : examples ≠ []) :
    ∃ mtr : EvalMetrics,
      evaluate_model batch_size pad_token_id applyLoss examples = Except.ok mtr ∧
      0 ≤ mtr.testAccuracy ∧ mtr.testAccuracy ≤ 100 ∧
      mtr.testAccuracy =
        100 * ((examples.filter (fun e => argmax e.logits == e.label)).length : ℚ) /
          (examples.length : ℚ) ∧
      mtr.testLoss =
        ((chunks batch_size examples).map
            (applyLoss (get_loss_fn PHASE.CLASSIFICATION pad_token_id))).sum /
          ((chunks batch_size examples).length : ℚ) ∧
      (chunks batch_size examples).length =
        (examples.length + batch_size - 1) / batch_size := by
  have htot : ((chunks batch_size examples).map List.length).sum = examples.length :=
    chunks_sum_length _ hB _
  have hlen : examples.length ≠ 0 := fun h => hM (List.length_eq_zero.mp h)
  have hne : ¬ ((chunks batch_size examples).map List.length).sum = 0 := by
    rw [htot]; exact hlen
  have hcor : ((chunks batch_size examples).map batchCorrect).sum =
      (examples.filter (fun e => argmax e.logits == e.label)).length :=
    chunks_sum_correct _ hB _
  have hpos : (0 : ℚ) < (examples.length : ℚ) :=
    Nat.cast_pos.mpr (Nat.pos_of_ne_zero hlen)
  refine ⟨⟨((chunks batch_size examples).map
        (applyLoss (get_loss_fn PHASE.CLASSIFICATION pad_token_id))).sum /
        ((chunks batch_size examples).length : ℚ),
      100 * ((((chunks batch_size examples).map batchCorrect).sum : ℚ)) /
        ((((chunks batch_size examples).map List.length).sum : ℚ))⟩,
    ?_, ?_, ?_, ?_, rfl, chunks_length _ hB _⟩
  · simp only [evaluate_model]
    rw [if_neg hne]
  · positivity
  · show 100 * ((((chunks batch_size examples).map batchCorrect).sum : ℚ)) /
        ((((chunks batch_size examples).map List.length).sum : ℚ)) ≤ 100
    rw [hcor, htot, div_le_iff₀ hpos]
    have h1 : ((examples.filter (fun e => argmax e.logits == e.label)).length : ℚ) ≤
        (examples.length : ℚ) :=
      Nat.cast_le.mpr (List.length_filter_le _ _)
    linarith
  · show 100 * ((((chunks batch_size examples).map batchCorrect).sum : ℚ)) /
        ((((chunks batch_size examples).map List.length).sum : ℚ)) = _
    rw [hcor, htot]

/-- C7 witness: the guarantee at a concrete three-example split with batch
size two. -/
theorem c7_eval_metrics_witness :
    ∃ mtr : EvalMetrics,
      evaluate_model 2 0 (fun _ _ => 1)
          [EvalExample.mk [1, 0] 0, EvalExample.mk [0, 1] 1,
           EvalExample.mk [1, 0] 1] = Except.ok mtr ∧
      0 ≤ mtr.testAccuracy ∧ mtr.testAccuracy ≤ 100 ∧
      mtr.testAccuracy =
        100 * (([EvalExample.mk [1, 0] 0, EvalExample.mk [0, 1] 1,
            EvalExample.mk [1, 0] 1].filter
              (fun e => argmax e.logits == e.label)).length : ℚ) /
          (([EvalExample.mk [1, 0] 0, EvalExample.mk [0, 1] 1,
            EvalExample.mk [1, 0] 1] : List EvalExample).length : ℚ) ∧
      mtr.testLoss =
        ((chunks 2 [EvalExample.mk [1, 0] 0, EvalExample.mk [0, 1] 1,
            EvalExample.mk [1, 0] 1]).map
            ((fun _ _ => (1 : ℚ)) (get_loss_fn PHASE.CLASSIFICATION 0))).sum /
          ((chunks 2 [EvalExample.mk [1, 0] 0, EvalExample.mk [0, 1] 1,
            EvalExample.mk [1, 0] 1]).length : ℚ) ∧
      (chunks 2 [EvalExample.mk [1, 0] 0, EvalExample.mk [0, 1] 1,
          EvalExample.mk [1, 0] 1]).length =
        (([EvalExample.mk [1, 0] 0, EvalExample.mk [0, 1] 1,
            EvalExample.mk [1, 0] 1] : List EvalExample).length + 2 - 1) / 2 :=
  c7_eval_metrics 2 0 (fun _ _ => 1)
    [EvalExample.mk [1, 0] 0, EvalExample.mk [0, 1] 1, EvalExample.mk [1, 0] 1]
    (by decide) (by decide)

/-- C8: with epochs = 1, batch size 2, a 4-example classification split and
both the save interval and the eval interval larger than the run's total of
2 steps, no checkpoint is written, no evaluation occurs, and the returned
metrics mapping is the initial empty one — for every warmup threshold, log
interval, loss oracle and worker role. -/
theorem c8_no_checkpoint_no_eval (seed : Nat) (lr : ℚ) (L S E W : Nat)
    (fw : Framework) (m : Bool) (hS : 2 < S) (hE : 2 < E) :
    (train_model PHASE.CLASSIFICATION none ⊤ ⟨seed, 2, 1, lr⟩ ⟨L, S, E, W⟩
      fw m 4).saved = [] ∧
    (train_model PHASE.CLASSIFICATION none ⊤ ⟨seed, 2, 1, lr⟩ ⟨L, S, E, W⟩
      fw m 4).evals = [] ∧
    (train_model PHASE.CLASSIFICATION none ⊤ ⟨seed, 2, 1, lr⟩ ⟨L, S, E, W⟩
      fw m 4).metrics = none := by
  have hnB : numBatches 2 4 = 2 := by
    rw [numBatches_eq 2 4 (by norm_num)]
  have hbatch : train_model PHASE.CLASSIFICATION none ⊤ ⟨seed, 2, 1, lr⟩
      ⟨L, S, E, W⟩ fw m 4 =
    runEpoch PHASE.CLASSIFICATION ⟨L, S, E, W⟩ fw m (numBatches 2 4) 0
      (TrainState.mk 0 ⊤ [] [] [] none) := rfl
  rw [hbatch, hnB]
  have hkey : runEpoch PHASE.CLASSIFICATION ⟨L, S, E, W⟩ fw m 2 0
      (TrainState.mk 0 ⊤ [] [] [] none) =
    processBatch PHASE.CLASSIFICATION ⟨L, S, E, W⟩ fw m 0
      (processBatch PHASE.CLASSIFICATION ⟨L, S, E, W⟩ fw m 0
        (TrainState.mk 0 ⊤ [] [] [] none)) := rfl
  rw [hkey]
  have hstep1 : (processBatch PHASE.CLASSIFICATION ⟨L, S, E, W⟩ fw m 0
      (TrainState.mk 0 ⊤ [] [] [] none)).step = 1 :=
    processBatch_step _ _ _ _ _ _
  have h1S : ¬ ((TrainState.mk 0 ⊤ [] [] [] none : TrainState).step + 1) % S = 0 := by
    show ¬ 1 % S = 0
    rw [Nat.mod_eq_of_lt (by omega)]
    omega
  have h2S : ¬ ((processBatch PHASE.CLASSIFICATION ⟨L, S, E, W⟩ fw m 0
      (TrainState.mk 0 ⊤ [] [] [] none)).step + 1) % S = 0 := by
    rw [hstep1, Nat.mod_eq_of_lt (by omega)]
    omega
  have h1E : ¬ ((TrainState.mk 0 ⊤ [] [] [] none : TrainState).step + 1) % E = 0 := by
    show ¬ 1 % E = 0
    rw [Nat.mod_eq_of_lt (by omega)]
    omega
  have h2E : ¬ ((processBatch PHASE.CLASSIFICATION ⟨L, S, E, W⟩ fw m 0
      (TrainState.mk 0 ⊤ [] [] [] none)).step + 1) % E = 0 := by
    rw [hstep1, Nat.mod_eq_of_lt (by omega)]
    omega
  refine ⟨?_, ?_, ?_⟩
  · rw [processBatch_saved_of _ _ _ _ _ _ h2S, processBatch_saved_of _ _ _ _ _ _ h1S]
  · rw [processBatch_evals_of _ _ _ _ _ _ h2E, processBatch_evals_of _ _ _ _ _ _ h1E]
  · rw [processBatch_metrics_of _ _ _ _ _ _ h2E, processBatch_metrics_of _ _ _ _ _ _ h1E]

/-- C8 witness: the scenario at save and eval intervals of 10. -/
theorem c8_no_checkpoint_no_eval_witness :
    (train_model PHASE.CLASSIFICATION none ⊤ ⟨0, 2, 1, 0⟩ ⟨1, 10, 10, 0⟩
        trivialFramework true 4).saved = [] ∧
    (train_model PHASE.CLASSIFICATION none ⊤ ⟨0, 2, 1, 0⟩ ⟨1, 10, 10, 0⟩
        trivialFramework true 4).evals = [] ∧
    (train_model PHASE.CLASSIFICATION none ⊤ ⟨0, 2, 1, 0⟩ ⟨1, 10, 10, 0⟩
        trivialFramework true 4).metrics = none :=
  c8_no_checkpoint_no_eval 0 0 1 10 10 0 trivialFramework true
    (by decide) (by decide)

/-- C3: resuming from a checkpoint with `during_pretraining = true` makes
the next phase AUTOREGRESSIVE with that checkpoint, and the checkpoint is
consumed exactly once: the classification phase of the same run receives no
checkpoint, so it starts at epoch 0 and step 0 (its final step is exactly
epochs times the batch count); and every checkpoint written during a phase
carries a `during_pretraining` flag equal to whether that phase is
AUTOREGRESSIVE. -/
theorem c3_pretrain_resume_once (dir : Option (List Checkpoint)) (pc : Bool)
    (cfg : TrainingConfig) (steps : StepsConfig) (fwAR fwCLS : Framework)
    (rank ar_size cls_size : Nat) (c : Checkpoint)
    (h1 : load_checkpoint dir = Except.ok (some c))
    (h2 : c.during_pretraining = true) :
    phasePlan (some c) pc =
      [⟨PHASE.AUTOREGRESSIVE, some c⟩, ⟨PHASE.CLASSIFICATION, none⟩] ∧
    train_and_evaluate_model dir pc cfg steps fwAR fwCLS rank ar_size cls_size =
      Except.ok
        ⟨some (train_model PHASE.AUTOREGRESSIVE (some c) ⊤ cfg steps fwAR
            (is_master_process rank) ar_size),
          train_model PHASE.CLASSIFICATION none
            (train_model PHASE.AUTOREGRESSIVE (some c) ⊤ cfg steps fwAR
              (is_master_process rank) ar_size).best_loss
            cfg steps fwCLS (is_master_process rank) cls_size⟩ ∧
    (train_model PHASE.CLASSIFICATION none
        (train_model PHASE.AUTOREGRESSIVE (some c) ⊤ cfg steps fwAR
          (is_master_process rank) ar_size).best_loss
        cfg steps fwCLS (is_master_process rank) cls_size).step =
      cfg.epochs * numBatches cfg.batch_size cls_size ∧
    (∀ ck ∈ (train_model PHASE.AUTOREGRESSIVE (some c) ⊤ cfg steps fwAR
        (is_master_process rank) ar_size).saved,
      ck.during_pretraining = true) ∧
    (∀ ck ∈ (train_model PHASE.CLASSIFICATION none
        (train_model PHASE.AUTOREGRESSIVE (some c) ⊤ cfg steps fwAR
          (is_master_process rank) ar_size).best_loss
        cfg steps fwCLS (is_master_process rank) cls_size).saved,
      ck.during_pretraining = false) := by
  refine ⟨?_, ?_, ?_, ?_, ?_⟩
  · simp [phasePlan, h2]
  · simp only [train_and_evaluate_model, h1]
    have hcond : ((some c).elim false Checkpoint.during_pretraining || pc) = true := by
      show (c.during_pretraining || pc) = true
      rw [h2]
      rfl
    rw [hcond]
    rfl
  · rw [train_model_step]
    simp
  · intro ck hck
    have hf := train_model_saved_flag PHASE.AUTOREGRESSIVE (some c) ⊤ cfg steps
      fwAR (is_master_process rank) ar_size ck hck
    simpa using hf
  · intro ck hck
    have hf := train_model_saved_flag PHASE.CLASSIFICATION none
      (train_model PHASE.AUTOREGRESSIVE (some c) ⊤ cfg steps fwAR
        (is_master_process rank) ar_size).best_loss
      cfg steps fwCLS (is_master_process rank) cls_size ck hck
    simpa using hf

/-- C3 witness: the guarantee at a concrete one-entry checkpoint directory
holding a pretraining checkpoint. -/
theorem c3_pretrain_resume_once_witness :
    phasePlan (some (Checkpoint.mk 0 0 0 0 ⊤ true)) false =
      [⟨PHASE.AUTOREGRESSIVE, some (Checkpoint.mk 0 0 0 0 ⊤ true)⟩,
       ⟨PHASE.CLASSIFICATION, none⟩] :=
  (c3_pretrain_resume_once (some [Checkpoint.mk 0 0 0 0 ⊤ true]) false
    ⟨0, 1, 0, 0⟩ ⟨1, 1, 1, 0⟩ trivialFramework trivialFramework 0 0 0
    (Checkpoint.mk 0 0 0 0 ⊤ true) rfl rfl).1

/-- C10: on every worker whose rank is not 0, the run returns an empty
metrics mapping regardless of configuration, and neither phase checkpoints,
logs scalars, or evaluates: all of those are gated on the coordinating
worker, and the metrics value is initialized empty and only assigned inside
that gate. -/
theorem c10_nonmaster_empty_metrics (dir : Option (List Checkpoint)) (pc : Bool)
    (cfg : TrainingConfig) (steps : StepsConfig) (fwAR fwCLS : Framework)
    (rank ar_size cls_size : Nat) (h : rank ≠ 0) :
    ∀ r : RunResult,
      train_and_evaluate_model dir pc cfg steps fwAR fwCLS rank ar_size cls_size =
        Except.ok r →
      r.classification.metrics = none ∧ r.classification.saved = [] ∧
      r.classification.logged = [] ∧ r.classification.evals = [] ∧
      ∀ p, r.pretrain = some p →
        p.metrics = none ∧ p.saved = [] ∧ p.logged = [] ∧ p.evals = [] := by
  have hm : is_master_process rank = false := beq_eq_false_iff_ne.mpr h
  intro r hr
  cases hld : load_checkpoint dir with
  | error e =>
      simp only [train_and_evaluate_model, hld] at hr
      exact Except.noConfusion hr
  | ok ckpt =>
      simp only [train_and_evaluate_model, hld, hm] at hr
      split at hr
      · rw [Except.ok.injEq] at hr
        subst hr
        obtain ⟨hsC, hlC, heC, hmC, _⟩ :=
          train_model_not_master PHASE.CLASSIFICATION none
            (train_model PHASE.AUTOREGRESSIVE ckpt ⊤ cfg steps fwAR false
              ar_size).best_loss cfg steps fwCLS cls_size
        obtain ⟨hsA, hlA, heA, hmA, _⟩ :=
          train_model_not_master PHASE.AUTOREGRESSIVE ckpt ⊤ cfg steps fwAR
            ar_size
        refine ⟨hmC, hsC, hlC, heC, ?_⟩
        rintro p hp
        rw [Option.some.injEq] at hp
        subst hp
        exact ⟨hmA, hsA, hlA, heA⟩
      · rw [Except.ok.injEq] at hr
        subst hr
        obtain ⟨hsC, hlC, heC, hmC, _⟩ :=
          train_model_not_master PHASE.CLASSIFICATION ckpt ⊤ cfg steps fwCLS
            cls_size
        refine ⟨hmC, hsC, hlC, heC, ?_⟩
        rintro p hp
        exact Option.noConfusion hp

/-- C10 witness: a rank-1 worker's run returns the empty metrics mapping. -/
theorem c10_nonmaster_empty_metrics_witness :
    (RunResult.mk none (TrainState.mk 0 ⊤ [] [] [] none)).classification.metrics =
      none :=
  (c10_nonmaster_empty_metrics none false ⟨0, 1, 0, 0⟩ ⟨1, 1, 1, 0⟩
    trivialFramework trivialFramework 1 0 0 (by decide)
    (RunResult.mk none (TrainState.mk 0 ⊤ [] [] [] none)) rfl).1

end SeqModels
